import Mathlib

/-!
Verification development for the lubbock-gallery repository.

The repository is a photo-gallery front end.  The code verified here is
the pure layout arithmetic of the 3D carousel scene
(src/components/canvas/Gallery.tsx), the page-level fetch-and-render
flow (the Next.js page component), and the per-frame easing updates.
JavaScript numbers appearing in the layout arithmetic are integers
(array lengths and sums of such), embedded as Int; angle arithmetic is
embedded over the rationals, with angles measured in units of pi
(the source computes Math.PI * 2 * point / total; we carry the factor
2 * point / total, so every angular identity transfers verbatim).
-/

namespace LubbockGallery

/-- Modelled from the spec: the domain types live in @/core/types, which
is not among the provided sources.  The spec describes a Photo as a
title plus URL/dimension records for small and medium variants. -/
structure ImageVariant where
  url : String
  width : Nat
  height : Nat
deriving Repr, DecidableEq

/-- Modelled from the spec: a single image entry with multiple
resolution variants and a title. -/
structure Photo where
  title : String
  small : ImageVariant
  medium : ImageVariant
deriving Repr, DecidableEq

/-- Modelled from the spec: a named, ordered collection of Photo
entries (an album / category), with an identifier. -/
structure PhotoSet where
  id : String
  title : String
  photos : List Photo
deriving Repr, DecidableEq

/-- One entry of the `groups` array built in `Scene`
(Gallery.tsx).  The source field `end` is a Lean keyword, embedded
here as `endPoint`. -/
structure GroupLayout where
  start : Int
  len : Int
  endPoint : Int
deriving Repr, DecidableEq

/-- `const gapBetweenGroups = 2` in `Scene`. -/
def gapBetweenGroups : Int := 2

/-- The start point of the next group:
`index === 0 ? 0 : groups[index - 1].start + len + gapBetweenGroups`.
At the time the `reduce` callback runs for `index`, the accumulator
holds exactly `index` entries, so `index === 0` is exactly the
accumulator being empty, and `groups[index - 1]` is its last entry. -/
def nextStart (groups : List GroupLayout) (len : Int) : Int :=
  match groups.getLast? with
  | none => 0
  | some g => g.start + len + gapBetweenGroups

/-- The body of the `reduce` callback in `Scene`:
`len = set.photos.length - 1`, `start` as in `nextStart`,
`end = start + len`, appended to the accumulator with a spread. -/
def addGroup (groups : List GroupLayout) (set : PhotoSet) : List GroupLayout :=
  let len : Int := (set.photos.length : Int) - 1
  let start : Int := nextStart groups len
  groups ++ [{ start := start, len := len, endPoint := start + len }]

/-- `photoSets.reduce(..., [])` in `Scene`. -/
def computeGroups (photoSets : List PhotoSet) : List GroupLayout :=
  photoSets.foldl addGroup []

theorem length_addGroup (groups : List GroupLayout) (s : PhotoSet) :
    (addGroup groups s).length = groups.length + 1 := by
  simp [addGroup]

theorem length_foldl_addGroup (ps : List PhotoSet) :
    ∀ acc : List GroupLayout,
      (ps.foldl addGroup acc).length = acc.length + ps.length := by
  induction ps with
  | nil => intro acc; simp
  | cons s rest ih =>
      intro acc
      simp only [List.foldl_cons, ih, length_addGroup, List.length_cons]
      omega

theorem length_computeGroups (ps : List PhotoSet) :
    (computeGroups ps).length = ps.length := by
  simpa [computeGroups] using length_foldl_addGroup ps []

theorem computeGroups_append_singleton (ps : List PhotoSet) (s : PhotoSet) :
    computeGroups (ps ++ [s]) = addGroup (computeGroups ps) s := by
  simp [computeGroups, List.foldl_append]

theorem addGroup_getElem?_lt (G : List GroupLayout) (s : PhotoSet) (i : ℕ)
    (h : i < G.length) : (addGroup G s)[i]? = G[i]? := by
  simp [addGroup, List.getElem?_append, h]

theorem addGroup_getElem?_last (G : List GroupLayout) (s : PhotoSet) :
    (addGroup G s)[G.length]? =
      some { start := nextStart G ((s.photos.length : Int) - 1)
             len := (s.photos.length : Int) - 1
             endPoint := nextStart G ((s.photos.length : Int) - 1)
                          + ((s.photos.length : Int) - 1) } := by
  simp [addGroup]

/-- C1 (amended): for every list of photo sets and every group index
i >= 1, the start point of group i equals the start point of group
i - 1, plus group i's own length (its photo count minus one), plus the
gap of 2; moreover every group's end point is its start plus its
length.  (The start does NOT in general equal the previous group's end
plus the gap: that happens exactly when the two sets have equally many
photos.) -/
theorem group_start_running_offset (ps : List PhotoSet) (i : ℕ)
    (h1 : 1 ≤ i) (hi : i < (computeGroups ps).length) :
    ∃ gPrev gCur sCur,
      (computeGroups ps)[i - 1]? = some gPrev
      ∧ (computeGroups ps)[i]? = some gCur
      ∧ ps[i]? = some sCur
      ∧ gCur.len = (sCur.photos.length : Int) - 1
      ∧ gCur.start = gPrev.start + gCur.len + gapBetweenGroups
      ∧ gCur.endPoint = gCur.start + gCur.len := by
  induction ps using List.reverseRecOn generalizing i with
  | nil => simp [computeGroups] at hi
  | append_singleton qs s ih =>
      rw [computeGroups_append_singleton] at hi ⊢
      rw [length_addGroup, length_computeGroups] at hi
      rcases Nat.lt_succ_iff_lt_or_eq.mp hi with hlt | heq
      · -- the index falls inside the groups of the shorter list
        have hlt' : i < (computeGroups qs).length := by
          rwa [length_computeGroups]
        obtain ⟨gPrev, gCur, sCur, e1, e2, e3, f1, f2, f3⟩ := ih i h1 hlt'
        refine ⟨gPrev, gCur, sCur, ?_, ?_, ?_, f1, f2, f3⟩
        · rw [addGroup_getElem?_lt _ _ _ (lt_of_le_of_lt (Nat.sub_le i 1) hlt'), e1]
        · rw [addGroup_getElem?_lt _ _ _ hlt', e2]
        · rw [List.getElem?_append, if_pos (by rwa [length_computeGroups] at hlt')]
          exact e3
      · -- the index is the freshly appended group
        subst heq
        have hq : 1 ≤ (computeGroups qs).length := by
          rwa [← length_computeGroups] at h1
        obtain ⟨gPrev, hgPrev⟩ :
            ∃ g, (computeGroups qs).getLast? = some g := by
          cases hg : (computeGroups qs).getLast? with
          | none =>
              rw [List.getLast?_eq_none_iff] at hg
              simp [hg] at hq
          | some g => exact ⟨g, rfl⟩
        refine ⟨gPrev,
          { start := nextStart (computeGroups qs) ((s.photos.length : Int) - 1)
            len := (s.photos.length : Int) - 1
            endPoint := nextStart (computeGroups qs) ((s.photos.length : Int) - 1)
                         + ((s.photos.length : Int) - 1) },
          s, ?_, ?_, ?_, rfl, ?_, rfl⟩
        · rw [addGroup_getElem?_lt _ _ _ (by rw [length_computeGroups]; omega),
            ← length_computeGroups qs, ← List.getLast?_eq_getElem?]
          exact hgPrev
        · rw [← length_computeGroups qs]
          exact addGroup_getElem?_last _ _
        · exact List.getElem?_concat_length qs s
        · simp [nextStart, hgPrev]

/-- A concrete pair of photo sets used to refute the claim as stated:
the first set has 4 photos, the second has 1. -/
def dummyPhoto : Photo :=
  { title := "p", small := { url := "u", width := 1, height := 1 }
    medium := { url := "u", width := 1, height := 1 } }

def cexSets : List PhotoSet :=
  [ { id := "a", title := "A", photos := List.replicate 4 dummyPhoto },
    { id := "b", title := "B", photos := [dummyPhoto] } ]

/-- C1 (counterexample): with photo sets of sizes 4 and 1, group 0 ends
at point 3, but group 1 starts at point 2, not at 3 + 2 = 5: the start
of a group is not the previous group's end plus the gap, and here the
groups even overlap. -/
theorem group_start_gap_cex :
    ((computeGroups cexSets)[1]?).map GroupLayout.start = some 2
    ∧ ((computeGroups cexSets)[0]?).map
        (fun g => g.endPoint + gapBetweenGroups) = some 5
    ∧ ((computeGroups cexSets)[0]?).map GroupLayout.endPoint = some 3
    ∧ (2 : Int) ≠ 5 := by
  decide

/-- C1 witness for the amended theorem at the concrete input
`cexSets`, index 1. -/
theorem group_start_running_offset_witness :
    ∃ gPrev gCur sCur,
      (computeGroups cexSets)[1 - 1]? = some gPrev
      ∧ (computeGroups cexSets)[1]? = some gCur
      ∧ cexSets[1]? = some sCur
      ∧ gCur.len = (sCur.photos.length : Int) - 1
      ∧ gCur.start = gPrev.start + gCur.len + gapBetweenGroups
      ∧ gCur.endPoint = gCur.start + gCur.len :=
  group_start_running_offset cexSets 1 (by decide)
    (by rw [length_computeGroups]; decide)

/-- The angle assigned to card i of a set of `amount` photos in
`Cards`: `const angle = from + (i / amount) * len`.  The source
parameter `from` is a Lean keyword; it is `f` here, and `len` is `l`.
Angles are in units of pi throughout (see the file header). -/
def cardAngle (f l : ℚ) (i amount : ℕ) : ℚ :=
  f + ((i : ℚ) / (amount : ℚ)) * l

/-- The cards produced by `Cards`:
`Array.from({ length: amount }, (_, i) => ...)` renders, at list
position i, a Card at angle `cardAngle f l i amount` whose `photo`
prop is `photos[i]`. -/
def cardsRender (photos : List Photo) (f l : ℚ) : List (ℚ × Option Photo) :=
  (List.range photos.length).map
    (fun i => (cardAngle f l i photos.length, photos[i]?))

theorem cardAngle_succ_sub (f l : ℚ) (N i : ℕ) (hN : N ≠ 0) :
    cardAngle f l (i + 1) N - cardAngle f l i N = l / (N : ℚ) := by
  have hN0 : (N : ℚ) ≠ 0 := Nat.cast_ne_zero.mpr hN
  rw [cardAngle, cardAngle]
  push_cast
  field_simp
  ring

/-- C2: with N photos (N >= 1), start angle `f` and angular length
`l`, photo i sits at angle f + (i / N) * l, and consecutive photos of
the same set are the constant angle l / N apart. -/
theorem cards_even_spacing (f l : ℚ) (N : ℕ) (hN : 1 ≤ N) (i : ℕ) :
    cardAngle f l i N = f + ((i : ℚ) / (N : ℚ)) * l
    ∧ cardAngle f l (i + 1) N - cardAngle f l i N = l / (N : ℚ) :=
  ⟨rfl, cardAngle_succ_sub f l N i (by omega)⟩

/-- C2 witness at f = 0, l = 1, N = 4, i = 1. -/
theorem cards_even_spacing_witness :
    cardAngle 0 1 1 4 = 0 + (((1 : ℕ) : ℚ) / ((4 : ℕ) : ℚ)) * 1
    ∧ cardAngle 0 1 (1 + 1) 4 - cardAngle 0 1 1 4 = 1 / ((4 : ℕ) : ℚ) :=
  cards_even_spacing 0 1 4 (by omega) 1

/-- C3: for every photo set, the i-th rendered card displays
photos[i] (which exists), and when the set's angular length is
positive the assigned angles are strictly increasing in i, so the
on-circle order matches the order of the set. -/
theorem cards_order (photos : List Photo) (f l : ℚ) (i : ℕ)
    (hi : i < photos.length) :
    (cardsRender photos f l)[i]? =
      some (cardAngle f l i photos.length, photos[i]?)
    ∧ (photos[i]?).isSome
    ∧ (0 < l → i + 1 < photos.length →
        cardAngle f l i photos.length < cardAngle f l (i + 1) photos.length) := by
  refine ⟨?_, ?_, ?_⟩
  · rw [cardsRender, List.getElem?_map, List.getElem?_range hi]
    rfl
  · rw [List.getElem?_eq_getElem hi]
    rfl
  · intro hl h
    have hsub := cardAngle_succ_sub f l photos.length i (by omega)
    have hpos : 0 < l / ((photos.length : ℕ) : ℚ) :=
      div_pos hl (by exact_mod_cast Nat.pos_of_ne_zero (by omega))
    linarith

/-- C3 witness at two photos, f = 0, l = 1, i = 0. -/
theorem cards_order_witness :
    (cardsRender [dummyPhoto, dummyPhoto] 0 1)[0]? =
      some (cardAngle 0 1 0 [dummyPhoto, dummyPhoto].length,
            [dummyPhoto, dummyPhoto][0]?)
    ∧ ([dummyPhoto, dummyPhoto][0]?).isSome
    ∧ ((0 : ℚ) < 1 → 0 + 1 < [dummyPhoto, dummyPhoto].length →
        cardAngle 0 1 0 [dummyPhoto, dummyPhoto].length <
          cardAngle 0 1 (0 + 1) [dummyPhoto, dummyPhoto].length) :=
  cards_order [dummyPhoto, dummyPhoto] 0 1 0 (by decide)

/-- `const total = groups[groups.length - 1].end` in `Scene`.  On an
empty `groups` array, `groups[-1]` is undefined and reading its `end`
field throws, so rendering fails; `none` embeds that failure. -/
def totalPoints (ps : List PhotoSet) : Option Int :=
  ((computeGroups ps).getLast?).map GroupLayout.endPoint

/-- C4: the access `groups[groups.length - 1].end` succeeds exactly
when the list of photo sets is non-empty; for the empty list the scene
reads the `end` field of an undefined value and rendering fails. -/
theorem scene_total_defined (ps : List PhotoSet) :
    (totalPoints ps).isSome ↔ ps ≠ [] := by
  have hlen := length_computeGroups ps
  rw [totalPoints]
  have hmap : (Option.map GroupLayout.endPoint (computeGroups ps).getLast?).isSome
      = ((computeGroups ps).getLast?).isSome := by simp
  rw [hmap, List.getLast?_isSome]
  constructor
  · intro h hnil
    subst hnil
    simp [computeGroups] at h
  · intro h hnil
    apply h
    rw [← List.length_eq_zero, ← hlen, hnil]
    rfl

/-- `pointToRadian` in `Scene`, in units of pi: the source computes
`(Math.PI * 2 * point) / total`; we carry `2 * point / total`.  In
JavaScript a zero `total` makes the quotient NaN or an infinity, all
non-finite; `none` embeds that. -/
def pointToRadian (total point : Int) : Option ℚ :=
  if total = 0 then none else some ((2 * (point : ℚ)) / (total : ℚ))

/-- C5: one photo set holding one photo makes the group have
len = start = end = 0, so the total point count is 0 and the
conversion divides by zero (a non-finite result); whenever the last
group ends at a positive point t, the conversion is the well-defined
value 2 * point / t (in units of pi). -/
theorem point_to_radian_total (idv titlev : String) (p : Photo)
    (ps : List PhotoSet) (t point : Int)
    (_ht : totalPoints ps = some t) (htpos : 0 < t) :
    totalPoints [{ id := idv, title := titlev, photos := [p] }] = some 0
    ∧ pointToRadian 0 point = none
    ∧ pointToRadian t point = some ((2 * (point : ℚ)) / (t : ℚ)) := by
  refine ⟨rfl, rfl, ?_⟩
  rw [pointToRadian, if_neg (by omega)]

/-- C5 witness: the singleton-singleton input, plus `cexSets`, whose
total is the positive value 2, at point 7. -/
theorem point_to_radian_total_witness :
    totalPoints [{ id := "s", title := "S", photos := [dummyPhoto] }] = some 0
    ∧ pointToRadian 0 7 = none
    ∧ pointToRadian 2 7 = some ((2 * (((7 : Int)) : ℚ)) / (((2 : Int)) : ℚ)) :=
  point_to_radian_total "s" "S" dummyPhoto cexSets 2 7 (by decide) (by decide)

/-- Observable events of the gallery page component.  Modelled from
the spec where it concerns `getAllPhotos` itself: the @/clients/flickr
module is not among the provided sources, and the spec describes it as
one read-only call to the photo-hosting API that either yields the
photo list or fails; its outcome is the `Except` parameter below. -/
inductive PageEvent (ε : Type) where
  | fetchCall : PageEvent ε
  | fetchOk : List Photo → PageEvent ε
  | fetchErr : ε → PageEvent ε
  | renderGallery : List Photo → PageEvent ε

def isFetchCall {ε : Type} : PageEvent ε → Bool
  | PageEvent.fetchCall => true
  | _ => false

def isRenderGallery {ε : Type} : PageEvent ε → Bool
  | PageEvent.renderGallery _ => true
  | _ => false

/-- The event trace of the page component:
`const photos = await getAllPhotos()` followed by the JSX.  There is
one call to getAllPhotos; if its promise rejects, the awaited error
propagates out of the async component (there is no try/catch) and the
gallery is never reached; if it resolves, `<PhotoGallery photos/>` is
rendered with exactly the fetched photos. -/
def pageTrace {ε : Type} (r : Except ε (List Photo)) : List (PageEvent ε) :=
  PageEvent.fetchCall ::
    (match r with
     | Except.error e => [PageEvent.fetchErr e]
     | Except.ok photos =>
         [PageEvent.fetchOk photos, PageEvent.renderGallery photos])

/-- What the page produces on success: the static header plus the
props handed to the PhotoGallery component. -/
structure PageOutput where
  headerTitle : String
  headerSubtitle : String
  galleryPhotos : List Photo
deriving Repr, DecidableEq

/-- The page component's result given the fetch outcome. -/
def renderPage {ε : Type} (r : Except ε (List Photo)) :
    Except ε PageOutput :=
  match r with
  | Except.error e => Except.error e
  | Except.ok photos =>
      Except.ok { headerTitle := "Lubbock", headerSubtitle := "Bordeaux"
                  galleryPhotos := photos }

/-- C6: a failed fetch propagates unhandled: the page render fails
with exactly the fetch error, the trace holds no second fetch call
(no retry), and no gallery content is produced. -/
theorem page_fetch_failure (ε : Type) (e : ε) :
    renderPage (Except.error e : Except ε (List Photo)) = Except.error e
    ∧ (pageTrace (Except.error e : Except ε (List Photo))).countP
        isFetchCall = 1
    ∧ (pageTrace (Except.error e : Except ε (List Photo))).countP
        isRenderGallery = 0 :=
  ⟨rfl, rfl, rfl⟩

/-- C9: every page render makes exactly one fetch call, and whenever
the gallery is rendered it shows exactly the fetched photos and the
successful completion of the fetch precedes it in the trace. -/
theorem page_single_fetch (ε : Type) (r : Except ε (List Photo)) :
    (pageTrace r).countP isFetchCall = 1
    ∧ ∀ (i : ℕ) (ph : List Photo),
        (pageTrace r)[i]? = some (PageEvent.renderGallery ph : PageEvent ε) →
        r = Except.ok ph
        ∧ ∃ j : ℕ, j < i
            ∧ (pageTrace r)[j]? = some (PageEvent.fetchOk ph : PageEvent ε) := by
  cases r with
  | error e =>
      refine ⟨rfl, ?_⟩
      intro i ph h
      match i with
      | 0 => simp [pageTrace] at h
      | 1 => simp [pageTrace] at h
      | n + 2 => simp [pageTrace] at h
  | ok photos =>
      refine ⟨rfl, ?_⟩
      intro i ph h
      match i with
      | 0 => simp [pageTrace] at h
      | 1 => simp [pageTrace] at h
      | 2 =>
          simp only [pageTrace, List.getElem?_cons_succ,
            List.getElem?_cons_zero, Option.some.injEq] at h
          cases h
          exact ⟨rfl, 1, by omega, rfl⟩
      | n + 3 => simp [pageTrace] at h

/-- Everything `Scene` computes from `photoSets` before rendering —
the groups array, the total, and every card's angle (in units of pi,
converted through `pointToRadian`) — paired with the value the
`photoSets` binding holds afterwards.  The source builds `groups`
with `reduce` and an array spread and only ever reads from the sets
(`set.photos.length`, `photoSet.id`, `photoSet.title`,
`photoSet.photos`, `photos[i]`), so the second component is the
untouched input. -/
def sceneCompute (photoSets : List PhotoSet) :
    (List GroupLayout × Option Int × List (List (Option ℚ)))
      × List PhotoSet :=
  let groups := computeGroups photoSets
  let total := (groups.getLast?).map GroupLayout.endPoint
  let angles := photoSets.mapIdx (fun index set =>
    match total, groups[index]? with
    | some t, some g =>
        (List.range set.photos.length).map (fun i =>
          match pointToRadian t g.start, pointToRadian t g.len with
          | some f, some l => some (cardAngle f l i set.photos.length)
          | _, _ => none)
    | _, _ => List.replicate set.photos.length none)
  ((groups, total, angles), photoSets)

/-- C7: the scene's layout computation does not mutate the photo
sets: after computing groups, total and all card angles, the
photoSets value — every set's id, title and photo sequence — is
unchanged. -/
theorem scene_preserves_photo_sets (ps : List PhotoSet) :
    (sceneCompute ps).2 = ps
    ∧ (sceneCompute ps).2.map PhotoSet.id = ps.map PhotoSet.id
    ∧ (sceneCompute ps).2.map PhotoSet.title = ps.map PhotoSet.title
    ∧ (sceneCompute ps).2.map PhotoSet.photos = ps.map PhotoSet.photos :=
  ⟨rfl, rfl, rfl, rfl⟩

/-- Modelled from the spec: `easing.damp3` and `easing.damp` come
from the third-party maath library, which is not part of this
repository; the spec describes them as exponential easing that, each
frame, nudges the current value toward the target.  One step with
smoothing time `tau` and frame time `dt` moves `x` the fraction
dt / (tau + dt) of the way to `target` (a discrete
exponential-decay step). -/
def dampStep (x target tau dt : ℚ) : ℚ :=
  x + (target - x) * (dt / (tau + dt))

/-- Componentwise damping of a three-component vector, as
`easing.damp3` applies to positions and scales. -/
def damp3 (v target : ℚ × ℚ × ℚ) (tau dt : ℚ) : ℚ × ℚ × ℚ :=
  (dampStep v.1 target.1 tau dt,
   dampStep v.2.1 target.2.1 tau dt,
   dampStep v.2.2 target.2.2 tau dt)

/-- `const ratio = 1.618` in `Card` (the card's aspect). -/
def cardAspect : ℚ := 1618 / 1000

/-- `const f = hovered ? 1.4 : active ? 1.25 : 1` in `Card`. -/
def cardScaleFactor (hovered active : Bool) : ℚ :=
  if hovered then 14 / 10 else if active then 125 / 100 else 1

/-- The target of
`easing.damp3(ref.current.position, [0, hovered ? 0.25 : 0, 0], 0.1, delta)`. -/
def cardPositionTarget (hovered : Bool) : ℚ × ℚ × ℚ :=
  (0, if hovered then 25 / 100 else 0, 0)

/-- The target of
`easing.damp3(ref.current.scale, [ratio * f, 1 * f, 1], 0.15, delta)`. -/
def cardScaleTarget (hovered active : Bool) : ℚ × ℚ × ℚ :=
  (cardAspect * cardScaleFactor hovered active,
   1 * cardScaleFactor hovered active, 1)

/-- One `useFrame` step of `Card`: position damped with smoothing
time 0.1, scale with smoothing time 0.15. -/
def cardFrameStep (pos scale : ℚ × ℚ × ℚ) (hovered active : Bool)
    (dt : ℚ) : (ℚ × ℚ × ℚ) × (ℚ × ℚ × ℚ) :=
  (damp3 pos (cardPositionTarget hovered) (1 / 10) dt,
   damp3 scale (cardScaleTarget hovered active) (15 / 100) dt)

/-- One `useFrame` step of `ActiveCard`: material zoom damped toward
1 with smoothing time 0.5, opacity toward `photo ? 1 : 0` with
smoothing time 0.3. -/
def activeCardFrameStep (zoom opacity : ℚ) (hasPhoto : Bool)
    (dt : ℚ) : ℚ × ℚ :=
  (dampStep zoom 1 (1 / 2) dt,
   dampStep opacity (if hasPhoto then 1 else 0) (3 / 10) dt)

/-- L1 distance on three-component vectors. -/
def dist3 (a b : ℚ × ℚ × ℚ) : ℚ :=
  |a.1 - b.1| + |a.2.1 - b.2.1| + |a.2.2 - b.2.2|

theorem dampStep_sub_target (x target tau dt : ℚ) (h : tau + dt ≠ 0) :
    dampStep x target tau dt - target = (x - target) * (tau / (tau + dt)) := by
  field_simp [dampStep]
  ring

theorem abs_dampStep_le (x target tau dt : ℚ)
    (htau : 0 < tau) (hdt : 0 < dt) :
    |dampStep x target tau dt - target| ≤ |x - target| := by
  have hsum : (0 : ℚ) < tau + dt := by linarith
  rw [dampStep_sub_target x target tau dt (ne_of_gt hsum), abs_mul]
  have h1 : |tau / (tau + dt)| ≤ 1 := by
    rw [abs_of_nonneg (by positivity), div_le_one hsum]
    linarith
  calc |x - target| * |tau / (tau + dt)|
      ≤ |x - target| * 1 := mul_le_mul_of_nonneg_left h1 (abs_nonneg _)
    _ = |x - target| := mul_one _

theorem dampStep_fixed (target tau dt : ℚ) :
    dampStep target target tau dt = target := by
  simp [dampStep]

theorem damp3_dist_le (v target : ℚ × ℚ × ℚ) (tau dt : ℚ)
    (htau : 0 < tau) (hdt : 0 < dt) :
    dist3 (damp3 v target tau dt) target ≤ dist3 v target := by
  have h1 := abs_dampStep_le v.1 target.1 tau dt htau hdt
  have h2 := abs_dampStep_le v.2.1 target.2.1 tau dt htau hdt
  have h3 := abs_dampStep_le v.2.2 target.2.2 tau dt htau hdt
  simp only [dist3, damp3]
  linarith

theorem damp3_fixed (target : ℚ × ℚ × ℚ) (tau dt : ℚ) :
    damp3 target target tau dt = target := by
  obtain ⟨a, b, c⟩ := target
  simp [damp3, dampStep]

/-- C8: one damping step of a card's position and scale, and of the
active preview's zoom and opacity, never increases the distance to
the respective target value, and a value already at its target stays
at the target. -/
theorem frame_damping_contracts (dt : ℚ) (hdt : 0 < dt)
    (pos scale : ℚ × ℚ × ℚ) (zoom opacity : ℚ)
    (hovered active hasPhoto : Bool) :
    dist3 (cardFrameStep pos scale hovered active dt).1
        (cardPositionTarget hovered)
      ≤ dist3 pos (cardPositionTarget hovered)
    ∧ dist3 (cardFrameStep pos scale hovered active dt).2
        (cardScaleTarget hovered active)
      ≤ dist3 scale (cardScaleTarget hovered active)
    ∧ |(activeCardFrameStep zoom opacity hasPhoto dt).1 - 1| ≤ |zoom - 1|
    ∧ |(activeCardFrameStep zoom opacity hasPhoto dt).2
          - (if hasPhoto then (1 : ℚ) else 0)|
      ≤ |opacity - (if hasPhoto then (1 : ℚ) else 0)|
    ∧ cardFrameStep (cardPositionTarget hovered)
        (cardScaleTarget hovered active) hovered active dt
      = (cardPositionTarget hovered, cardScaleTarget hovered active)
    ∧ activeCardFrameStep 1 (if hasPhoto then 1 else 0) hasPhoto dt
      = (1, if hasPhoto then (1 : ℚ) else 0) := by
  refine ⟨?_, ?_, ?_, ?_, ?_, ?_⟩
  · exact damp3_dist_le pos _ _ dt (by norm_num) hdt
  · exact damp3_dist_le scale _ _ dt (by norm_num) hdt
  · exact abs_dampStep_le zoom 1 _ dt (by norm_num) hdt
  · exact abs_dampStep_le opacity _ _ dt (by norm_num) hdt
  · simp [cardFrameStep, damp3_fixed]
  · simp [activeCardFrameStep, dampStep_fixed]

/-- C8 witness at dt = 1, everything else at simple concrete values. -/
theorem frame_damping_contracts_witness :
    dist3 (cardFrameStep (0, 0, 0) (1, 1, 1) false false 1).1
        (cardPositionTarget false)
      ≤ dist3 (0, 0, 0) (cardPositionTarget false)
    ∧ dist3 (cardFrameStep (0, 0, 0) (1, 1, 1) false false 1).2
        (cardScaleTarget false false)
      ≤ dist3 (1, 1, 1) (cardScaleTarget false false)
    ∧ |(activeCardFrameStep 0 0 false 1).1 - 1| ≤ |(0 : ℚ) - 1|
    ∧ |(activeCardFrameStep 0 0 false 1).2
          - (if false then (1 : ℚ) else 0)|
      ≤ |(0 : ℚ) - (if false then (1 : ℚ) else 0)|
    ∧ cardFrameStep (cardPositionTarget false)
        (cardScaleTarget false false) false false 1
      = (cardPositionTarget false, cardScaleTarget false false)
    ∧ activeCardFrameStep 1 (if false then 1 else 0) false 1
      = (1, if false then (1 : ℚ) else 0) :=
  frame_damping_contracts 1 (by norm_num) (0, 0, 0) (1, 1, 1) 0 0
    false false false

/-- A JavaScript value that may be a Photo, null, or undefined.
`hoveredPhoto` is declared `Photo | null`, but indexing an array with
null stores undefined in it, so the third possibility is real. -/
inductive JsVal where
  | undef : JsVal
  | nullv : JsVal
  | photoVal : Photo → JsVal
deriving Repr, DecidableEq

/-- JavaScript truthiness for such a value: a Photo object is truthy,
null and undefined are falsy. -/
def jsTruthy : JsVal → Bool
  | JsVal.photoVal _ => true
  | JsVal.undef => false
  | JsVal.nullv => false

/-- `photoSet.photos[index]` where `index : number | null` comes from
`onHoverCard`: indexing a JavaScript array with null yields
undefined, as does an out-of-range index. -/
def indexPhotos (photos : List Photo) : Option Nat → JsVal
  | none => JsVal.undef
  | some i =>
      match photos[i]? with
      | none => JsVal.undef
      | some p => JsVal.photoVal p

/-- What `Scene` stores in `hoveredPhoto` when a card's pointer-out
handler fires: the handler calls `onHoverCard(null)` and `Scene`
stores `photoSet.photos[null]`. -/
def afterPointerOut (photos : List Photo) : JsVal :=
  indexPhotos photos none

/-- `hoveredPhoto ? <ActiveCard photo=... /> : null` in `Scene`: the
enlarged preview is mounted exactly when `hoveredPhoto` is truthy. -/
def showsActiveCard (hoveredPhoto : JsVal) : Bool :=
  jsTruthy hoveredPhoto

/-- C10: after any pointer-out event, `hoveredPhoto` holds undefined
(neither a Photo nor null); undefined is falsy, so the enlarged
ActiveCard preview is unmounted. -/
theorem pointer_out_unmounts_preview (photos : List Photo) :
    afterPointerOut photos = JsVal.undef
    ∧ afterPointerOut photos ≠ JsVal.nullv
    ∧ (∀ p : Photo, afterPointerOut photos ≠ JsVal.photoVal p)
    ∧ showsActiveCard (afterPointerOut photos) = false :=
  ⟨rfl, by simp [afterPointerOut, indexPhotos],
    fun p => by simp [afterPointerOut, indexPhotos], rfl⟩

end LubbockGallery
